import Mathlib

/-!
Verification of the ARC_2025 data-visualization utilities.

This file gives a shallow embedding in Lean 4 of the pure computational
content of the three Python scripts in `src/data_vis/`:

* `arc_visualizer.py` — `plot_grid`, `visualize_challenge`,
  `visualize_random_challenges`;
* `arc_explorer.py` — `analyze_data_statistics`, `find_interesting_challenges`;
* `arc_histogram.py` — `extract_all_integers`, `create_histogram`,
  `print_statistics`, and the dataset-selection logic of `main`.

Matrices are `List (List Int)`; mappings keyed by challenge identifier are
association lists; Python `None` is `Option.none`; code that can raise is
modelled with `Option`/`Except`.  NumPy slice-assignment semantics (negative
start normalization, clipping, shape-mismatch `ValueError`) are modelled
explicitly where `plot_grid` relies on them.
-/

/-- A grid is a matrix of integer color codes, as in the JSON data files. -/
abbrev Grid := List (List Int)

/-- Height of a grid: the first component of `np.array(grid).shape`. -/
def gheight (g : Grid) : Nat := g.length

/-- Width of a grid: the second component of `np.array(grid).shape`
(the common row length of a rectangular matrix; we read it off the
first row). -/
def gwidth (g : Grid) : Nat := (g.headD []).length

/-- A grid is rectangular when every row has the common width.
`np.array` only yields a 2-D integer array for rectangular input. -/
def isRect (g : Grid) : Bool := g.all (fun r => r.length = gwidth g)

/-- Number of cells, `grid.size` of the NumPy array. -/
def garea (g : Grid) : Nat := gheight g * gwidth g

/-- Shape `np.array(grid).shape` of a rectangular grid. -/
def gshape (g : Grid) : Nat × Nat := (gheight g, gwidth g)

/-- One training example: an `{"input": ..., "output": ...}` pair. -/
structure Example where
  input : Grid
  output : Grid
deriving DecidableEq

/-- One challenge: ordered training examples and ordered test inputs
(the `"train"` and `"test"` arrays of the challenge JSON; test entries
carry only their `"input"` grid). -/
structure Challenge where
  train : List Example
  test : List Grid
deriving DecidableEq

/-! ## NumPy slice-assignment semantics

`plot_grid` executes
`padded_grid[start_h:start_h+h, start_w:start_w+w] = original_grid`.
A Python slice endpoint `a` on an axis of size `n` is normalized to
`max (a + n) 0` when negative and clipped to `n` otherwise; the
assignment succeeds iff the resulting slice shape equals the shape of the
assigned array (otherwise NumPy raises a broadcast `ValueError`; the
dimensions of the assigned array here are never 1 when a mismatch occurs, so
no replication-broadcast can rescue it). -/

/-- Normalized position of slice endpoint `a` on an axis of size `n`. -/
def npNormStart (a n : Int) : Int := if a < 0 then max (a + n) 0 else min a n

/-- Number of indices selected by the slice `[a : b]` on an axis of size `n`. -/
def npSliceLen (a b n : Int) : Int := max (npNormStart b n - npNormStart a n) 0

/-- Shallow embedding of `plot_grid` (arc_visualizer.py, lines 54–81),
restricted to the displayed cell matrix.  Returns `none` where the Python
code raises: on an empty grid (`np.array([])` is 1-D, so the shape unpack
fails), on a ragged grid (`np.array` does not produce a 2-D integer
array), and when the centered slice assignment does not fit the
`max_size × max_size` canvas (NumPy broadcast `ValueError`).  Otherwise it
returns the displayed grid: the padded canvas with sentinel `-1` outside
the centered region when either dimension is below `max_size`, or the
original grid unchanged when both dimensions meet the cap. -/
def plotGrid (grid : Grid) (max_size : Nat := 30) : Option Grid :=
  if grid.length = 0 then none
  else if !(isRect grid) then none
  else
    let oh := gheight grid
    let ow := gwidth grid
    if oh < max_size || ow < max_size then
      let sh : Int := Int.fdiv ((max_size : Int) - (oh : Int)) 2
      let sw : Int := Int.fdiv ((max_size : Int) - (ow : Int)) 2
      if npSliceLen sh (sh + oh) max_size = (oh : Int)
          && npSliceLen sw (sw + ow) max_size = (ow : Int) then
        let ah := (npNormStart sh max_size).toNat
        let aw := (npNormStart sw max_size).toNat
        some ((List.range max_size).map (fun i =>
          (List.range max_size).map (fun j =>
            if ah ≤ i ∧ i < ah + oh ∧ aw ≤ j ∧ j < aw + ow then
              (grid.getD (i - ah) []).getD (j - aw) 0
            else -1)))
      else none
    else some grid

/-- Modelled from the spec: the canvas the specification describes for a
small matrix — exactly `cap × cap` cells, the original matrix unchanged at
offsets `(cap - height) / 2` and `(cap - width) / 2`, every other cell the
padding sentinel `-1`. -/
def specPaddedCanvas (grid : Grid) (cap : Nat) : Grid :=
  let sh := (cap - gheight grid) / 2
  let sw := (cap - gwidth grid) / 2
  (List.range cap).map (fun i =>
    (List.range cap).map (fun j =>
      if sh ≤ i ∧ i < sh + gheight grid ∧ sw ≤ j ∧ j < sw + gwidth grid then
        (grid.getD (i - sh) []).getD (j - sw) 0
      else -1))

lemma fdiv_sub_cast (n m : Nat) (h : m ≤ n) :
    Int.fdiv ((n : Int) - (m : Int)) 2 = (((n - m) / 2 : Nat) : Int) := by
  rw [Int.fdiv_eq_ediv _ (by norm_num)]
  omega

/-- C1 (counterexample): the claim quantifies over every rectangular matrix
with at least one dimension strictly below the cap, but a 1 × 31 matrix —
height 1 < 30 — makes `plot_grid` compute the negative column offset
`(30 - 31) // 2 = -1`, so the NumPy slice assignment clips to a single
column and raises a broadcast `ValueError` instead of rendering a
30 × 30 canvas. -/
theorem plot_grid_small_claim_counterexample :
    gheight (List.replicate 1 (List.replicate 31 (0 : Int))) < 30 ∧
    isRect (List.replicate 1 (List.replicate 31 (0 : Int))) = true ∧
    plotGrid (List.replicate 1 (List.replicate 31 (0 : Int))) 30 = none := by
  decide

/-- C1 (amended): for every nonempty rectangular matrix whose dimensions
are both at most the cap and at least one of them strictly below it,
`plot_grid` displays exactly the cap × cap canvas with the original values
unchanged at offsets `(cap - height) / 2`, `(cap - width) / 2` and the
sentinel `-1` everywhere else. -/
theorem plot_grid_small_pads_centered (grid : Grid) (cap : Nat)
    (hrect : isRect grid = true) (hpos : 0 < gheight grid)
    (hh : gheight grid ≤ cap) (hw : gwidth grid ≤ cap)
    (hlt : gheight grid < cap ∨ gwidth grid < cap) :
    plotGrid grid cap = some (specPaddedCanvas grid cap) ∧
    (specPaddedCanvas grid cap).length = cap ∧
    ∀ r ∈ specPaddedCanvas grid cap, r.length = cap := by
  refine ⟨?_, by simp [specPaddedCanvas], ?_⟩
  · have h0 : ¬ (grid.length = 0) := by unfold gheight at hpos; omega
    have hshI := fdiv_sub_cast cap (gheight grid) hh
    have hswI := fdiv_sub_cast cap (gwidth grid) hw
    set sh := (cap - gheight grid) / 2 with hsh_def
    set sw := (cap - gwidth grid) / 2 with hsw_def
    have e1 : npSliceLen ((sh : Int)) ((sh : Int) + (gheight grid : Int)) (cap : Int)
        = (gheight grid : Int) := by
      unfold npSliceLen npNormStart
      split_ifs <;> omega
    have e2 : npSliceLen ((sw : Int)) ((sw : Int) + (gwidth grid : Int)) (cap : Int)
        = (gwidth grid : Int) := by
      unfold npSliceLen npNormStart
      split_ifs <;> omega
    have hA : (npNormStart (sh : Int) (cap : Int)).toNat = sh := by
      unfold npNormStart; split_ifs <;> omega
    have hB : (npNormStart (sw : Int) (cap : Int)).toNat = sw := by
      unfold npNormStart; split_ifs <;> omega
    simp only [plotGrid, if_neg h0, hrect, Bool.not_true, Bool.false_eq_true, if_false,
      hshI, hswI, e1, e2]
    rw [if_pos (by rcases hlt with h | h <;> simp [h])]
    rw [if_pos (by simp)]
    simp only [hA, hB, specPaddedCanvas]
  · intro r hr
    simp only [specPaddedCanvas, List.mem_map] at hr
    obtain ⟨i, -, rfl⟩ := hr
    simp

/-- C1 witness: a 2 × 2 matrix is rendered as the centered 30 × 30 canvas. -/
theorem plot_grid_small_pads_centered_witness :
    plotGrid [[1, 2], [3, 4]] 30 = some (specPaddedCanvas [[1, 2], [3, 4]] 30) :=
  (plot_grid_small_pads_centered [[1, 2], [3, 4]] 30 (by decide) (by decide)
    (by decide) (by decide) (Or.inl (by decide))).1

/-- C5: a rectangular matrix with both dimensions at least the cap is
displayed at native size — `plot_grid` returns the matrix itself, with no
padding cells added and no cells dropped. -/
theorem plot_grid_large_renders_native (grid : Grid) (cap : Nat)
    (hrect : isRect grid = true) (hpos : 0 < gheight grid)
    (hh : cap ≤ gheight grid) (hw : cap ≤ gwidth grid) :
    plotGrid grid cap = some grid := by
  have h0 : ¬ (grid.length = 0) := by unfold gheight at hpos; omega
  simp only [plotGrid, if_neg h0, hrect, Bool.not_true, Bool.false_eq_true, if_false]
  rw [if_neg (by simp; omega)]

/-- C5 witness: a 30 × 30 matrix is displayed unchanged. -/
theorem plot_grid_large_renders_native_witness :
    plotGrid (List.replicate 30 (List.replicate 30 (5 : Int))) 30
      = some (List.replicate 30 (List.replicate 30 (5 : Int))) :=
  plot_grid_large_renders_native _ 30 (by decide) (by decide) (by decide) (by decide)

/-! ## arc_explorer.py -/

/-- Insert a value into an ascending duplicate-free list, keeping it
ascending and duplicate-free.  Folding this over a list computes the Python
expression `sorted(set(...))`. -/
def insertSortedDedup (x : Int) : List Int → List Int
  | [] => [x]
  | y :: ys =>
    if x = y then y :: ys
    else if x < y then x :: y :: ys
    else y :: insertSortedDedup x ys

/-- The Python expression `sorted(set(l))`: the distinct elements of `l` in ascending
order. -/
def sortedDedup (l : List Int) : List Int := l.foldr insertSortedDedup []

lemma mem_insertSortedDedup (a x : Int) (l : List Int) :
    a ∈ insertSortedDedup x l ↔ a = x ∨ a ∈ l := by
  induction l with
  | nil => simp [insertSortedDedup]
  | cons y ys ih =>
    by_cases h1 : x = y
    · subst h1
      simp only [insertSortedDedup, if_pos rfl]
      constructor
      · intro h; exact Or.inr h
      · rintro (rfl | h) <;> simp_all
    · by_cases h2 : x < y
      · simp only [insertSortedDedup, if_neg h1, if_pos h2, List.mem_cons]
      · simp only [insertSortedDedup, if_neg h1, if_neg h2, List.mem_cons, ih]
        tauto

lemma sorted_insertSortedDedup (x : Int) (l : List Int)
    (hl : List.Sorted (· < ·) l) :
    List.Sorted (· < ·) (insertSortedDedup x l) := by
  induction l with
  | nil => simp [insertSortedDedup]
  | cons y ys ih =>
    have hys : List.Sorted (· < ·) ys := hl.of_cons
    have hy : ∀ z ∈ ys, y < z := fun z hz => List.rel_of_sorted_cons hl z hz
    by_cases h1 : x = y
    · simpa [insertSortedDedup, h1] using hl
    · by_cases h2 : x < y
      · simp only [insertSortedDedup, if_neg h1, if_pos h2]
        refine List.sorted_cons.mpr ⟨?_, hl⟩
        intro z hz
        rcases List.mem_cons.mp hz with rfl | hz
        · exact h2
        · exact lt_trans h2 (hy z hz)
      · have hyx : y < x := by omega
        simp only [insertSortedDedup, if_neg h1, if_neg h2]
        refine List.sorted_cons.mpr ⟨?_, ih hys⟩
        intro z hz
        rcases (mem_insertSortedDedup z x ys).mp hz with rfl | hz
        · exact hyx
        · exact hy z hz

lemma mem_sortedDedup (a : Int) (l : List Int) :
    a ∈ sortedDedup l ↔ a ∈ l := by
  induction l with
  | nil => simp [sortedDedup]
  | cons y ys ih =>
    simp only [sortedDedup, List.foldr_cons, mem_insertSortedDedup, List.mem_cons]
    rw [← sortedDedup, ih]

lemma sorted_sortedDedup (l : List Int) :
    List.Sorted (· < ·) (sortedDedup l) := by
  induction l with
  | nil => simp [sortedDedup]
  | cons y ys ih => exact sorted_insertSortedDedup y _ ih

/-- All cell values collected by `analyze_data_statistics`
(arc_explorer.py, lines 29–43): the loop visits only the training list of each challenge
and flattens each training input and output grid into the value set. -/
def trainValues (chs : List Challenge) : List Int :=
  chs.flatMap (fun c => c.train.flatMap (fun e => e.input.flatten ++ e.output.flatten))

/-- The list `sorted(unique_values)` returned by `analyze_data_statistics`
(arc_explorer.py, lines 60–67): the distinct collected values in
ascending order. -/
def uniqueValues (chs : List Challenge) : List Int :=
  sortedDedup (trainValues chs)

/-- Modelled from the spec: the cell values of every input and output
matrix of every example, training and test, of every challenge (a test
example contributes its input grid; the challenge files carry no test
outputs). -/
def specAllExampleValues (chs : List Challenge) : List Int :=
  chs.flatMap (fun c =>
    (c.train.flatMap (fun e => e.input.flatten ++ e.output.flatten))
      ++ c.test.flatMap (fun g => g.flatten))

/-- C2 (counterexample): a value occurring only in a test input is missed
by the aggregator, because `analyze_data_statistics` scans training
examples only; the reported set therefore differs from the set of values
over every example, training and test. -/
theorem unique_values_claim_counterexample :
    (5 : Int) ∈ specAllExampleValues [⟨[⟨[[1]], [[1]]⟩], [[[5]]]⟩] ∧
    (5 : Int) ∉ uniqueValues [⟨[⟨[[1]], [[1]]⟩], [[[5]]]⟩] := by
  decide

/-- C2 (amended): the reported distinct-value list of the statistics
aggregator contains exactly the values occurring in the training
example input and output matrices, is sorted strictly ascending (hence
duplicate-free), and — whenever every training cell lies in [0, 9] — is a
subset of {0, ..., 9}. -/
theorem unique_values_spec (chs : List Challenge) :
    (∀ v : Int, v ∈ uniqueValues chs ↔ v ∈ trainValues chs) ∧
    List.Sorted (· < ·) (uniqueValues chs) ∧
    (uniqueValues chs).Nodup ∧
    ((∀ v ∈ trainValues chs, 0 ≤ v ∧ v ≤ 9) →
      ∀ v ∈ uniqueValues chs, 0 ≤ v ∧ v ≤ 9) := by
  have hs := sorted_sortedDedup (trainValues chs)
  refine ⟨fun v => mem_sortedDedup v _, hs, ?_, ?_⟩
  · exact List.Sorted.nodup hs
  · intro h v hv
    exact h v ((mem_sortedDedup v _).mp hv)

/-- C2 witness: evaluated on one concrete challenge. -/
theorem unique_values_spec_witness : 0 ≤ (3 : Int) ∧ (3 : Int) ≤ 9 :=
  (unique_values_spec [⟨[⟨[[3, 3]], [[7]]⟩], []⟩]).2.2.2 (by decide) 3 (by decide)

/-- Number of distinct values of a grid:
`len(set(np.array(grid).flatten()))` in `find_interesting_challenges`. -/
def uniqueCount (g : Grid) : Nat := g.flatten.dedup.length

/-- Large-grid test of `find_interesting_challenges` (arc_explorer.py,
line 90) for one training example: input or output has more than 200
cells. -/
def exLarge (e : Example) : Bool := 200 < garea e.input || 200 < garea e.output

/-- Small-grid test (line 94): input or output has fewer than 10 cells. -/
def exSmall (e : Example) : Bool := garea e.input < 10 || garea e.output < 10

/-- Many-colors test (line 100): more than 5 distinct values in the input
or in the output. -/
def exManyColors (e : Example) : Bool :=
  5 < uniqueCount e.input || 5 < uniqueCount e.output

/-- Simple-pattern test (line 104): at most 2 distinct values in the input
and in the output. -/
def exSimple (e : Example) : Bool :=
  uniqueCount e.input ≤ 2 && uniqueCount e.output ≤ 2

/-- Size-change test (line 108): input shape differs from output shape. -/
def exSizeChange (e : Example) : Bool := gshape e.input ≠ gshape e.output

/-- A challenge lands in `large_grids` iff one of its training examples
passes the large-grid test; `find_interesting_challenges` iterates only
over the training examples. -/
def isLarge (c : Challenge) : Bool := c.train.any exLarge

/-- Membership in `small_grids`. -/
def isSmall (c : Challenge) : Bool := c.train.any exSmall

/-- Membership in `many_colors`. -/
def manyColors (c : Challenge) : Bool := c.train.any exManyColors

/-- Membership in `simple_patterns`. -/
def isSimple (c : Challenge) : Bool := c.train.any exSimple

/-- Membership in `size_changes`. -/
def sizeChanging (c : Challenge) : Bool := c.train.any exSizeChange

/-- The training example `input [[1,1],[1,1]]`, `output [[2,2],[2,2]]`
named by claim C6. -/
def ex0 : Example := ⟨[[1, 1], [1, 1]], [[2, 2], [2, 2]]⟩

/-- C6 (counterexample): the classifier never looks at test examples, so a
challenge whose only large grid is a 21 × 10 test input (area 210 > 200)
is not classified "large", contradicting the claimed "if and only if some
example of the challenge has area greater than 200". -/
theorem find_interesting_large_claim_counterexample :
    (Challenge.mk [ex0] [List.replicate 21 (List.replicate 10 (0 : Int))]).test.any
        (fun g => 200 < garea g) = true ∧
    isLarge (Challenge.mk [ex0] [List.replicate 21 (List.replicate 10 (0 : Int))])
      = false := by
  decide

/-- C6 (amended): a challenge containing the training example
`[[1,1],[1,1]] → [[2,2],[2,2]]` is classified "small" and "simple"; that
example passes neither the many-colors nor the size-change test, so those
labels require some other training example to satisfy them; and the
challenge is classified "large" if and only if some training example has
input or output area greater than 200. -/
theorem find_interesting_classification (c : Challenge) (hmem : ex0 ∈ c.train) :
    isSmall c = true ∧
    isSimple c = true ∧
    exManyColors ex0 = false ∧
    (manyColors c = true ↔
      ∃ e ∈ c.train, 5 < uniqueCount e.input ∨ 5 < uniqueCount e.output) ∧
    exSizeChange ex0 = false ∧
    (sizeChanging c = true ↔ ∃ e ∈ c.train, gshape e.input ≠ gshape e.output) ∧
    (isLarge c = true ↔
      ∃ e ∈ c.train, 200 < garea e.input ∨ 200 < garea e.output) := by
  refine ⟨?_, ?_, by decide, ?_, by decide, ?_, ?_⟩
  · exact List.any_eq_true.mpr ⟨ex0, hmem, by decide⟩
  · exact List.any_eq_true.mpr ⟨ex0, hmem, by decide⟩
  · simp [manyColors, exManyColors, List.any_eq_true]
  · simp [sizeChanging, exSizeChange, List.any_eq_true]
  · simp [isLarge, exLarge, List.any_eq_true]

/-- C6 witness: the classification evaluated on a concrete challenge made
of that single training example. -/
theorem find_interesting_classification_witness :
    isSmall (Challenge.mk [ex0] []) = true ∧ isSimple (Challenge.mk [ex0] []) = true :=
  ⟨(find_interesting_classification (Challenge.mk [ex0] []) (by decide)).1,
    (find_interesting_classification (Challenge.mk [ex0] []) (by decide)).2.1⟩

/-- The Python `min` over a list of numbers: raises `ValueError` on an empty
sequence, otherwise folds to the least element (first one on ties). -/
def pyMinNat : List Nat → Except String Nat
  | [] => .error "min() arg is an empty sequence"
  | x :: xs => .ok (xs.foldl Nat.min x)

/-- The Python `max` over a list of numbers. -/
def pyMaxNat : List Nat → Except String Nat
  | [] => .error "max() arg is an empty sequence"
  | x :: xs => .ok (xs.foldl Nat.max x)

/-- The Python lexicographic comparison step for `min` over shape tuples:
keep the incumbent unless the candidate is strictly smaller. -/
def pairMin (a b : Nat × Nat) : Nat × Nat :=
  if b.1 < a.1 ∨ (b.1 = a.1 ∧ b.2 < a.2) then b else a

/-- Lexicographic `max` step: replace the incumbent only when the
candidate is strictly greater. -/
def pairMax (a b : Nat × Nat) : Nat × Nat :=
  if a.1 < b.1 ∨ (a.1 = b.1 ∧ a.2 < b.2) then b else a

/-- The Python `min` over a list of shape tuples. -/
def pyMinPair : List (Nat × Nat) → Except String (Nat × Nat)
  | [] => .error "min() arg is an empty sequence"
  | x :: xs => .ok (xs.foldl pairMin x)

/-- The Python `max` over a list of shape tuples. -/
def pyMaxPair : List (Nat × Nat) → Except String (Nat × Nat)
  | [] => .error "max() arg is an empty sequence"
  | x :: xs => .ok (xs.foldl pairMax x)

/-- The dictionary returned by `analyze_data_statistics`. -/
structure DataStats where
  train_counts : List Nat
  test_counts : List Nat
  input_sizes : List (Nat × Nat)
  output_sizes : List (Nat × Nat)
  unique_values : List Int
deriving DecidableEq

/-- Shallow embedding of `analyze_data_statistics` (arc_explorer.py,
lines 16–68).  The collected lists are computed as in the source; the
`min`/`max` aggregates evaluated by the print statements are sequenced in
source order and each can fail on an empty sequence, which propagates as
the Python `ValueError` does.  (`np.mean` returns `nan` on empty input
rather than raising, so the means are not modelled; on an empty dataset
the first `min(train_counts)` fails before any mean is printed.) -/
def analyzeDataStatistics (chs : List Challenge) : Except String DataStats := do
  let train_counts := chs.map (fun c => c.train.length)
  let test_counts := chs.map (fun c => c.test.length)
  let allTrainExamples := chs.flatMap (fun c => c.train)
  let input_sizes := allTrainExamples.map (fun e => gshape e.input)
  let output_sizes := allTrainExamples.map (fun e => gshape e.output)
  let _ ← pyMinNat train_counts
  let _ ← pyMaxNat train_counts
  let _ ← pyMinNat test_counts
  let _ ← pyMaxNat test_counts
  let input_areas := input_sizes.map (fun p => p.1 * p.2)
  let output_areas := output_sizes.map (fun p => p.1 * p.2)
  let _ ← pyMinPair input_sizes
  let _ ← pyMaxPair input_sizes
  let _ ← pyMinPair output_sizes
  let _ ← pyMaxPair output_sizes
  let _ ← pyMinNat input_areas
  let _ ← pyMaxNat input_areas
  let _ ← pyMinNat output_areas
  let _ ← pyMaxNat output_areas
  pure {
    train_counts := train_counts
    test_counts := test_counts
    input_sizes := input_sizes
    output_sizes := output_sizes
    unique_values := uniqueValues chs
  }

/-- C8: on an empty challenge mapping the statistics aggregator fails with
the arithmetic/domain error of `min` over an empty sequence — it returns
no result, and nothing in `arc_explorer.py` catches it. -/
theorem analyze_data_statistics_empty_fails :
    analyzeDataStatistics [] = Except.error "min() arg is an empty sequence" := by
  rfl

/-! ## arc_histogram.py -/

/-- One step of the Python `Counter(list)` construction: increment the entry
of `x` if present, otherwise append `(x, 1)`; dict insertion order is
first-occurrence order. -/
def counterInsert (l : List (Int × Nat)) (x : Int) : List (Int × Nat) :=
  if l.any (fun p => p.1 = x) then
    l.map (fun p => if p.1 = x then (p.1, p.2 + 1) else p)
  else l ++ [(x, 1)]

/-- The counter `Counter(all_integers)` as an association list in
first-occurrence order. -/
def pyCounter (xs : List Int) : List (Int × Nat) := xs.foldl counterInsert []

/-- Lookup `counter.get(i, 0)`. -/
def counterGet (c : List (Int × Nat)) (i : Int) : Nat :=
  match c.find? (fun p => p.1 = i) with
  | some p => p.2
  | none => 0

/-- The list `frequencies = [counter.get(i, 0) for i in range(10)]` of
`create_histogram` (arc_histogram.py, lines 83–84). -/
def histFrequencies (xs : List Int) : List Nat :=
  (List.range 10).map (fun i => counterGet (pyCounter xs) (Int.ofNat i))

/-- The reported `total_count = sum(frequencies)` (line 109). -/
def histTotalCount (xs : List Int) : Nat := (histFrequencies xs).sum

/-- Maximum of a list of naturals (`max(frequencies)`; 0 on empty input,
which the code never hits since `frequencies` has ten entries). -/
def listMax (l : List Nat) : Nat := l.foldr Nat.max 0

/-- Index of the first occurrence of `m` in `l` (length of `l` if absent). -/
def firstIdxEq : List Nat → Nat → Nat
  | [], _ => 0
  | x :: xs, m => if x = m then 0 else firstIdxEq xs m + 1

/-- Semantics of `np.argmax(l)`: the first index attaining the
maximum. -/
def npArgmax (l : List Nat) : Nat := firstIdxEq l (listMax l)

/-- Minimum of the strictly positive entries, if any. -/
def listMinPos (l : List Nat) : Option Nat :=
  match l.filter (fun v => 0 < v) with
  | [] => none
  | x :: xs => some (xs.foldl Nat.min x)

/-- Semantics of `np.argmin` applied to
`[f if f > 0 else float("inf") for f in l]` (line 113): the first index
minimizing the key that sends zero counts to infinity; when every entry
is zero all keys are infinite and the first index, 0, is returned. -/
def npArgminInf (l : List Nat) : Nat :=
  match listMinPos l with
  | none => 0
  | some m => firstIdxEq l m

/-- The `Most Common` value of the statistics box of the figure (line 112):
`integers[np.argmax(frequencies)]`, and `integers = list(range(10))`. -/
def histMostCommon (xs : List Int) : Nat := npArgmax (histFrequencies xs)

/-- The `Least Common` value of the statistics box (line 113). -/
def histLeastCommon (xs : List Int) : Nat := npArgminInf (histFrequencies xs)

/-- The Python `max(items, key=lambda x: x[1])`: the first item with maximal
second component (`None` models the `ValueError` on an empty sequence). -/
def pyMaxBySnd : List (Int × Nat) → Option (Int × Nat)
  | [] => none
  | x :: xs => some (xs.foldl (fun best y => if best.2 < y.2 then y else best) x)

/-- The Python `min(items, key=lambda x: x[1])`: the first item with minimal
second component. -/
def pyMinBySnd : List (Int × Nat) → Option (Int × Nat)
  | [] => none
  | x :: xs => some (xs.foldl (fun best y => if y.2 < best.2 then y else best) x)

/-- The entry `most_common = max(counter.items(), key=lambda x: x[1])` of
`print_statistics` (arc_histogram.py, line 159). -/
def printStatsMost (c : List (Int × Nat)) : Option (Int × Nat) := pyMaxBySnd c

/-- The entry `least_common`, minimum of
`[(k, v) for k, v in counter.items() if v > 0]` by count (line 160). -/
def printStatsLeast (c : List (Int × Nat)) : Option (Int × Nat) :=
  pyMinBySnd (c.filter (fun p => 0 < p.2))

/-- The printed ratio `most_common[1] / least_common[1]` (line 164), as an
exact rational. -/
def printStatsQuot (c : List (Int × Nat)) : Option ℚ :=
  match printStatsMost c, printStatsLeast c with
  | some p, some q => some ((p.2 : ℚ) / (q.2 : ℚ))
  | _, _ => none

/-- Shallow embedding of `extract_all_integers` (arc_histogram.py,
lines 45–73): every training input and output cell, every test input
cell, and — for challenges with an entry in the solution mapping — every
solution cell, in document order. -/
def extractAllIntegers (challenges : List (String × Challenge))
    (solutions : List (String × List Grid)) : List Int :=
  challenges.flatMap (fun ch =>
    (ch.2.train.flatMap (fun e => e.input.flatten ++ e.output.flatten))
      ++ (ch.2.test.flatMap (fun g => g.flatten))
      ++ (match solutions.find? (fun s => s.1 = ch.1) with
          | some s => s.2.flatMap (fun g => g.flatten)
          | none => []))

/-- The integer list `main` assembles (arc_histogram.py, lines 192–212):
`--test-only` drops the training datasets, `--training-only` drops the
evaluation datasets, no flags keeps both, training data first. -/
def mainAllIntegers (trainC : List (String × Challenge))
    (trainS : List (String × List Grid)) (testC : List (String × Challenge))
    (testS : List (String × List Grid)) (trainingOnly testOnly : Bool) : List Int :=
  (if !testOnly then extractAllIntegers trainC trainS else [])
    ++ (if !trainingOnly then extractAllIntegers testC testS else [])

lemma firstIdxEq_spec (l : List Nat) (m : Nat) (hm : m ∈ l) :
    firstIdxEq l m < l.length ∧ l.getD (firstIdxEq l m) 0 = m ∧
    ∀ j < firstIdxEq l m, l.getD j 0 ≠ m := by
  induction l with
  | nil => cases hm
  | cons x xs ih =>
    by_cases hx : x = m
    · subst hx
      simp [firstIdxEq]
    · have hm' : m ∈ xs := by
        rcases List.mem_cons.mp hm with h | h
        · exact absurd h.symm hx
        · exact h
      obtain ⟨h1, h2, h3⟩ := ih hm'
      refine ⟨?_, ?_, ?_⟩
      · simpa [firstIdxEq, hx] using Nat.succ_lt_succ h1
      · simpa [firstIdxEq, hx] using h2
      · intro j hj
        simp only [firstIdxEq, if_neg hx] at hj
        match j with
        | 0 => simpa using hx
        | j + 1 => simpa using h3 j (by omega)

lemma le_listMax (l : List Nat) : ∀ x ∈ l, x ≤ listMax l := by
  induction l with
  | nil => simp
  | cons y ys ih =>
    intro x hx
    rcases List.mem_cons.mp hx with rfl | hx
    · simp [listMax]
    · calc x ≤ listMax ys := ih x hx
        _ ≤ listMax (y :: ys) := by simp [listMax]

lemma listMax_mem (l : List Nat) (h : l ≠ []) : listMax l ∈ l := by
  induction l with
  | nil => simp at h
  | cons y ys ih =>
    rcases List.eq_nil_or_concat ys with rfl | -
    · simp [listMax]
    · by_cases hys : ys = []
      · subst hys; simp [listMax]
      · have hmax : listMax (y :: ys) = Nat.max y (listMax ys) := rfl
        rcases Nat.le_total (listMax ys) y with hle | hle
        · have hy : Nat.max y (listMax ys) = y := Nat.max_eq_left hle
          rw [hmax, hy]
          exact List.mem_cons_self y ys
        · have hy : Nat.max y (listMax ys) = listMax ys := Nat.max_eq_right hle
          rw [hmax, hy]
          exact List.mem_cons_of_mem y (ih hys)

lemma foldl_min_le_init (l : List Nat) (init : Nat) :
    l.foldl Nat.min init ≤ init := by
  induction l generalizing init with
  | nil => simp
  | cons x xs ih =>
    calc (x :: xs).foldl Nat.min init = xs.foldl Nat.min (Nat.min init x) := rfl
      _ ≤ Nat.min init x := ih _
      _ ≤ init := Nat.min_le_left _ _

lemma foldl_min_le_mem (l : List Nat) (init : Nat) :
    ∀ x ∈ l, l.foldl Nat.min init ≤ x := by
  induction l generalizing init with
  | nil => simp
  | cons y ys ih =>
    intro x hx
    rcases List.mem_cons.mp hx with rfl | hx
    · calc (x :: ys).foldl Nat.min init = ys.foldl Nat.min (Nat.min init x) := rfl
        _ ≤ Nat.min init x := foldl_min_le_init _ _
        _ ≤ x := Nat.min_le_right _ _
    · exact ih _ x hx

lemma foldl_min_mem (l : List Nat) (init : Nat) :
    l.foldl Nat.min init = init ∨ l.foldl Nat.min init ∈ l := by
  induction l generalizing init with
  | nil => simp
  | cons y ys ih =>
    rcases ih (Nat.min init y) with h | h
    · rcases Nat.le_total init y with hle | hle
      · left
        have hy : Nat.min init y = init := Nat.min_eq_left hle
        rw [List.foldl_cons, h, hy]
      · right
        have hy : Nat.min init y = y := Nat.min_eq_right hle
        rw [List.foldl_cons, h, hy]
        exact List.mem_cons_self _ _
    · right
      exact List.mem_cons_of_mem _ h

lemma listMinPos_spec (l : List Nat) (m : Nat) (hm : listMinPos l = some m) :
    m ∈ l ∧ 0 < m ∧ ∀ x ∈ l, 0 < x → m ≤ x := by
  unfold listMinPos at hm
  rcases hf : l.filter (fun v => 0 < v) with - | ⟨y, ys⟩
  · rw [hf] at hm; cases hm
  · rw [hf] at hm
    have hm' : m = ys.foldl Nat.min y := by
      simpa using hm.symm
    have hmem : m ∈ y :: ys := by
      rcases foldl_min_mem ys y with h | h
      · rw [hm', h]; exact List.mem_cons_self _ _
      · rw [hm']; exact List.mem_cons_of_mem _ h
    have hmf : m ∈ l.filter (fun v => 0 < v) := by rw [hf]; exact hmem
    have hml : m ∈ l := List.mem_of_mem_filter hmf
    have hmpos : 0 < m := by
      have := List.of_mem_filter hmf
      simpa using this
    refine ⟨hml, hmpos, ?_⟩
    intro x hx hxpos
    have hxf : x ∈ l.filter (fun v => 0 < v) :=
      List.mem_filter.mpr ⟨hx, by simpa using hxpos⟩
    rw [hf] at hxf
    rcases List.mem_cons.mp hxf with rfl | hxf
    · calc m = ys.foldl Nat.min x := hm'
        _ ≤ x := foldl_min_le_init _ _
    · rw [hm']
      exact foldl_min_le_mem _ _ x hxf

lemma listMinPos_isSome (l : List Nat) (h : ∃ x ∈ l, 0 < x) :
    ∃ m, listMinPos l = some m := by
  obtain ⟨x, hx, hxpos⟩ := h
  have : x ∈ l.filter (fun v => 0 < v) :=
    List.mem_filter.mpr ⟨hx, by simpa using hxpos⟩
  unfold listMinPos
  rcases hf : l.filter (fun v => 0 < v) with - | ⟨y, ys⟩
  · rw [hf] at this; cases this
  · rw [hf]
    exact ⟨_, rfl⟩

lemma getD_mem_of_lt (l : List Nat) (j : Nat) (h : j < l.length) :
    l.getD j 0 ∈ l := by
  induction l generalizing j with
  | nil => simp at h
  | cons x xs ih =>
    match j with
    | 0 => simp
    | j + 1 =>
      simp only [List.getD_cons_succ]
      exact List.mem_cons_of_mem _ (ih j (by simpa using h))

lemma npArgmax_spec (l : List Nat) (hne : l ≠ []) :
    npArgmax l < l.length ∧ (∀ x ∈ l, x ≤ l.getD (npArgmax l) 0) ∧
    ∀ j < npArgmax l, l.getD j 0 < l.getD (npArgmax l) 0 := by
  have hmem := listMax_mem l hne
  obtain ⟨h1, h2, h3⟩ := firstIdxEq_spec l (listMax l) hmem
  unfold npArgmax
  refine ⟨h1, ?_, ?_⟩
  · intro x hx
    rw [h2]
    exact le_listMax l x hx
  · intro j hj
    have hjl : j < l.length := lt_trans hj h1
    have hle := le_listMax l _ (getD_mem_of_lt l j hjl)
    rw [h2]
    exact lt_of_le_of_ne hle (h3 j hj)

lemma npArgminInf_spec (l : List Nat) (hpos : ∃ x ∈ l, 0 < x) :
    npArgminInf l < l.length ∧ 0 < l.getD (npArgminInf l) 0 ∧
    (∀ x ∈ l, 0 < x → l.getD (npArgminInf l) 0 ≤ x) ∧
    ∀ j < npArgminInf l, 0 < l.getD j 0 →
      l.getD (npArgminInf l) 0 < l.getD j 0 := by
  obtain ⟨m, hm⟩ := listMinPos_isSome l hpos
  obtain ⟨hml, hmpos, hmle⟩ := listMinPos_spec l m hm
  obtain ⟨h1, h2, h3⟩ := firstIdxEq_spec l m hml
  unfold npArgminInf
  rw [hm]
  refine ⟨h1, ?_, ?_, ?_⟩
  · rw [h2]; exact hmpos
  · intro x hx hxpos
    rw [h2]
    exact hmle x hx hxpos
  · intro j hj hjpos
    have hjl : j < l.length := lt_trans hj h1
    have hle := hmle _ (getD_mem_of_lt l j hjl) hjpos
    rw [h2]
    exact lt_of_le_of_ne hle (fun hc => h3 j hj hc.symm)

lemma foldlMaxBySnd_spec (xs : List (Int × Nat)) (x : Int × Nat) :
    (xs.foldl (fun best y => if best.2 < y.2 then y else best) x) ∈ x :: xs ∧
    ∀ p ∈ x :: xs,
      p.2 ≤ (xs.foldl (fun best y => if best.2 < y.2 then y else best) x).2 := by
  induction xs generalizing x with
  | nil => simp
  | cons y ys ih =>
    obtain ⟨ihmem, ihle⟩ := ih (if x.2 < y.2 then y else x)
    have hstep : (y :: ys).foldl (fun best y => if best.2 < y.2 then y else best) x
        = ys.foldl (fun best y => if best.2 < y.2 then y else best)
            (if x.2 < y.2 then y else x) := rfl
    constructor
    · rw [hstep]
      rcases List.mem_cons.mp ihmem with h | h
      · rw [h]
        split_ifs
        · exact List.mem_cons_of_mem _ (List.mem_cons_self _ _)
        · exact List.mem_cons_self _ _
      · exact List.mem_cons_of_mem _ (List.mem_cons_of_mem _ h)
    · intro p hp
      rw [hstep]
      rcases List.mem_cons.mp hp with rfl | hp
      · refine le_trans ?_ (ihle _ (List.mem_cons_self _ _))
        split_ifs with h
        · exact le_of_lt h
        · exact le_refl _
      · rcases List.mem_cons.mp hp with rfl | hp
        · refine le_trans ?_ (ihle _ (List.mem_cons_self _ _))
          split_ifs with h
          · exact le_refl _
          · exact le_of_not_lt h
        · exact ihle p (List.mem_cons_of_mem _ hp)

lemma foldlMinBySnd_spec (xs : List (Int × Nat)) (x : Int × Nat) :
    (xs.foldl (fun best y => if y.2 < best.2 then y else best) x) ∈ x :: xs ∧
    ∀ p ∈ x :: xs,
      (xs.foldl (fun best y => if y.2 < best.2 then y else best) x).2 ≤ p.2 := by
  induction xs generalizing x with
  | nil => simp
  | cons y ys ih =>
    obtain ⟨ihmem, ihle⟩ := ih (if y.2 < x.2 then y else x)
    have hstep : (y :: ys).foldl (fun best y => if y.2 < best.2 then y else best) x
        = ys.foldl (fun best y => if y.2 < best.2 then y else best)
            (if y.2 < x.2 then y else x) := rfl
    constructor
    · rw [hstep]
      rcases List.mem_cons.mp ihmem with h | h
      · rw [h]
        split_ifs
        · exact List.mem_cons_of_mem _ (List.mem_cons_self _ _)
        · exact List.mem_cons_self _ _
      · exact List.mem_cons_of_mem _ (List.mem_cons_of_mem _ h)
    · intro p hp
      rw [hstep]
      rcases List.mem_cons.mp hp with rfl | hp
      · refine le_trans (ihle _ (List.mem_cons_self _ _)) ?_
        split_ifs with h
        · exact le_of_lt h
        · exact le_refl _
      · rcases List.mem_cons.mp hp with rfl | hp
        · refine le_trans (ihle _ (List.mem_cons_self _ _)) ?_
          split_ifs with h
          · exact le_refl _
          · exact le_of_not_lt h
        · exact ihle p (List.mem_cons_of_mem _ hp)

lemma pyMaxBySnd_spec (c : List (Int × Nat)) (hne : c ≠ []) :
    ∃ p, pyMaxBySnd c = some p ∧ p ∈ c ∧ ∀ q ∈ c, q.2 ≤ p.2 := by
  match c, hne with
  | x :: xs, _ =>
    obtain ⟨hmem, hle⟩ := foldlMaxBySnd_spec xs x
    exact ⟨_, rfl, hmem, hle⟩

lemma pyMinBySnd_spec (c : List (Int × Nat)) (hne : c ≠ []) :
    ∃ p, pyMinBySnd c = some p ∧ p ∈ c ∧ ∀ q ∈ c, p.2 ≤ q.2 := by
  match c, hne with
  | x :: xs, _ =>
    obtain ⟨hmem, hle⟩ := foldlMinBySnd_spec xs x
    exact ⟨_, rfl, hmem, hle⟩

lemma counterInsert_ne_nil (acc : List (Int × Nat)) (x : Int) :
    counterInsert acc x ≠ [] := by
  unfold counterInsert
  split_ifs with h
  · intro hc
    rcases acc with - | ⟨p, ps⟩
    · simp at h
    · simp at hc
  · simp

lemma foldl_counterInsert_ne_nil (ys : List Int) (acc : List (Int × Nat))
    (h : acc ≠ []) : ys.foldl counterInsert acc ≠ [] := by
  induction ys generalizing acc with
  | nil => simpa
  | cons y ys ih =>
    rw [List.foldl_cons]
    exact ih _ (counterInsert_ne_nil acc y)

lemma pyCounter_ne_nil (xs : List Int) (h : xs ≠ []) : pyCounter xs ≠ [] := by
  match xs, h with
  | x :: xs, _ =>
    show (x :: xs).foldl counterInsert [] ≠ []
    rw [List.foldl_cons]
    exact foldl_counterInsert_ne_nil xs _ (counterInsert_ne_nil [] x)

lemma counterInsert_pos (acc : List (Int × Nat)) (x : Int)
    (h : ∀ p ∈ acc, 0 < p.2) : ∀ p ∈ counterInsert acc x, 0 < p.2 := by
  unfold counterInsert
  split_ifs with hany
  · intro p hp
    obtain ⟨q, hq, hfq⟩ := List.mem_map.mp hp
    have := h q hq
    split_ifs at hfq <;> simp [← hfq] <;> omega
  · intro p hp
    rcases List.mem_append.mp hp with hp | hp
    · exact h p hp
    · simp at hp
      simp [hp]

lemma foldl_counterInsert_pos (ys : List Int) (acc : List (Int × Nat))
    (h : ∀ p ∈ acc, 0 < p.2) : ∀ p ∈ ys.foldl counterInsert acc, 0 < p.2 := by
  induction ys generalizing acc with
  | nil => exact h
  | cons y ys ih =>
    rw [List.foldl_cons]
    exact ih _ (counterInsert_pos acc y h)

lemma pyCounter_pos (xs : List Int) : ∀ p ∈ pyCounter xs, 0 < p.2 :=
  foldl_counterInsert_pos xs [] (by simp)

lemma histFrequencies_length (xs : List Int) : (histFrequencies xs).length = 10 := by
  rw [histFrequencies, List.length_map, List.length_range]

/-- C3 (counterexample): with scanned data `[3, 3, 2, 2]` the values 2 and
3 tie at count 2, yet `print_statistics` reports 3 — the first key in
`Counter` insertion order — as both most and least common, not the lowest
palette index 2 the claim requires. -/
theorem print_stats_tiebreak_counterexample :
    counterGet (pyCounter [3, 3, 2, 2]) 2 = counterGet (pyCounter [3, 3, 2, 2]) 3 ∧
    0 < counterGet (pyCounter [3, 3, 2, 2]) 2 ∧
    printStatsMost (pyCounter [3, 3, 2, 2]) = some (3, 2) ∧
    printStatsLeast (pyCounter [3, 3, 2, 2]) = some (3, 2) := by
  decide

/-- C3 (amended): in the statistics box of the figure, the most- and
least-frequent palette values break ties by lowest palette index and the
least-frequent is chosen among nonzero counts; `print_statistics` reports
a most-frequent entry achieving the maximum count and a least-frequent
entry achieving the minimum nonzero count — ties there following counter
insertion order rather than palette order — and its reported ratio equals
the most-frequent count divided by the least-frequent nonzero count. -/
theorem histogram_stats_spec (xs : List Int)
    (hne : xs ≠ []) (hpos : ∃ f ∈ histFrequencies xs, 0 < f) :
    (histMostCommon xs < 10 ∧
      (∀ j < 10, (histFrequencies xs).getD j 0
          ≤ (histFrequencies xs).getD (histMostCommon xs) 0) ∧
      ∀ j < histMostCommon xs,
        (histFrequencies xs).getD j 0
          < (histFrequencies xs).getD (histMostCommon xs) 0) ∧
    (histLeastCommon xs < 10 ∧
      0 < (histFrequencies xs).getD (histLeastCommon xs) 0 ∧
      (∀ j < 10, 0 < (histFrequencies xs).getD j 0 →
        (histFrequencies xs).getD (histLeastCommon xs) 0
          ≤ (histFrequencies xs).getD j 0) ∧
      ∀ j < histLeastCommon xs, 0 < (histFrequencies xs).getD j 0 →
        (histFrequencies xs).getD (histLeastCommon xs) 0
          < (histFrequencies xs).getD j 0) ∧
    ∃ p q, printStatsMost (pyCounter xs) = some p ∧
      printStatsLeast (pyCounter xs) = some q ∧
      p ∈ pyCounter xs ∧ (∀ r ∈ pyCounter xs, r.2 ≤ p.2) ∧
      q ∈ pyCounter xs ∧ 0 < q.2 ∧ (∀ r ∈ pyCounter xs, 0 < r.2 → q.2 ≤ r.2) ∧
      printStatsQuot (pyCounter xs) = some ((p.2 : ℚ) / (q.2 : ℚ)) := by
  have hlen := histFrequencies_length xs
  have hfne : histFrequencies xs ≠ [] := by
    intro hc
    rw [hc] at hlen
    simp at hlen
  refine ⟨?_, ?_, ?_⟩
  · obtain ⟨h1, h2, h3⟩ := npArgmax_spec (histFrequencies xs) hfne
    refine ⟨by rwa [hlen] at h1, ?_, h3⟩
    intro j hj
    exact h2 _ (getD_mem_of_lt _ j (by omega))
  · obtain ⟨h1, h2, h3, h4⟩ := npArgminInf_spec (histFrequencies xs) hpos
    refine ⟨by rwa [hlen] at h1, h2, ?_, h4⟩
    intro j hj hjpos
    exact h3 _ (getD_mem_of_lt _ j (by omega)) hjpos
  · have hcne := pyCounter_ne_nil xs hne
    have hcpos := pyCounter_pos xs
    obtain ⟨p, hp, hpm, hple⟩ := pyMaxBySnd_spec (pyCounter xs) hcne
    have hfilter : (pyCounter xs).filter (fun p => 0 < p.2) = pyCounter xs :=
      List.filter_eq_self.mpr (fun a ha => by simpa using hcpos a ha)
    obtain ⟨q, hq, hqm, hqle⟩ := pyMinBySnd_spec (pyCounter xs) hcne
    refine ⟨p, q, hp, ?_, hpm, hple, hqm, hcpos q hqm, fun r hr _ => hqle r hr, ?_⟩
    · rw [printStatsLeast, hfilter]
      exact hq
    · rw [printStatsQuot, printStatsMost, hp, printStatsLeast, hfilter, hq]

/-- C3 witness: evaluated on the scanned data `[1, 1, 4]`. -/
theorem histogram_stats_spec_witness :
    histMostCommon [1, 1, 4] < 10 ∧
    0 < (histFrequencies [1, 1, 4]).getD (histLeastCommon [1, 1, 4]) 0 :=
  ⟨(histogram_stats_spec [1, 1, 4] (by decide) ⟨2, by decide, by decide⟩).1.1,
    (histogram_stats_spec [1, 1, 4] (by decide) ⟨2, by decide, by decide⟩).2.1.2.1⟩

lemma counterGet_counterInsert (acc : List (Int × Nat)) (x v : Int) :
    counterGet (counterInsert acc x) v
      = counterGet acc v + if v = x then 1 else 0 := by
  have hfst : ∀ p : Int × Nat, ((if p.1 = x then (p.1, p.2 + 1) else p) : Int × Nat).1 = p.1 := by
    intro p
    split_ifs <;> rfl
  by_cases hany : (acc.any fun p => decide (p.1 = x)) = true
  · have h1 : counterInsert acc x
        = acc.map (fun p => if p.1 = x then (p.1, p.2 + 1) else p) := by
      unfold counterInsert
      rw [if_pos hany]
    rw [h1]
    unfold counterGet
    rw [List.find?_map]
    have hfun : ((fun q : Int × Nat => decide (q.1 = v))
          ∘ (fun p : Int × Nat => if p.1 = x then (p.1, p.2 + 1) else p))
        = (fun p : Int × Nat => decide (p.1 = v)) := by
      funext p
      simp [Function.comp, hfst p]
    rw [hfun]
    by_cases hvx : v = x
    · subst hvx
      obtain ⟨p0, hp0, hp0x⟩ := List.any_eq_true.mp hany
      rcases hf : acc.find? (fun p : Int × Nat => decide (p.1 = v)) with - | p1
      · rw [List.find?_eq_none] at hf
        exact absurd hp0x (hf p0 hp0)
      · have hp1 : p1.1 = v := by simpa using List.find?_some hf
        simp [hp1]
    · rcases hf : acc.find? (fun p : Int × Nat => decide (p.1 = v)) with - | p1
      · simp [hvx]
      · have hp1 : p1.1 = v := by simpa using List.find?_some hf
        have hp1x : ¬ (p1.1 = x) := by rw [hp1]; exact hvx
        simp [hp1x, hvx]
  · have h1 : counterInsert acc x = acc ++ [(x, 1)] := by
      unfold counterInsert
      rw [if_neg hany]
    rw [h1]
    unfold counterGet
    rw [List.find?_append]
    by_cases hvx : v = x
    · subst hvx
      have hnone : acc.find? (fun q : Int × Nat => decide (q.1 = v)) = none := by
        rw [List.find?_eq_none]
        intro p hp hc
        exact hany (List.any_eq_true.mpr ⟨p, hp, hc⟩)
      rw [hnone]
      simp [List.find?]
    · rcases hf : acc.find? (fun q : Int × Nat => decide (q.1 = v)) with - | p1
      · have hxv : ¬ (x = v) := fun hc => hvx hc.symm
        simp [List.find?, hxv, hvx]
      · simp [hvx]

lemma ite_beq_comm (a b : Int) : (if (a == b) = true then 1 else 0) = (if b = a then (1 : Nat) else 0) := by
  by_cases h : b = a
  · simp [h]
  · have h2 : ¬ (a = b) := fun hc => h hc.symm
    simp [h, h2]

lemma counterGet_foldl (l : List Int) (acc : List (Int × Nat)) (v : Int) :
    counterGet (l.foldl counterInsert acc) v = counterGet acc v + l.count v := by
  induction l generalizing acc with
  | nil => simp
  | cons x xs ih =>
    rw [List.foldl_cons, ih, counterGet_counterInsert, List.count_cons, ite_beq_comm]
    omega

lemma counterGet_pyCounter (xs : List Int) (v : Int) :
    counterGet (pyCounter xs) v = xs.count v := by
  have h := counterGet_foldl xs [] v
  simpa [pyCounter, counterGet] using h

lemma histFrequencies_eq_counts (xs : List Int) :
    histFrequencies xs = (List.range 10).map (fun i => xs.count (Int.ofNat i)) := by
  unfold histFrequencies
  simp only [counterGet_pyCounter]

lemma sum_map_add {α : Type} (l : List α) (f g : α → Nat) :
    (l.map (fun i => f i + g i)).sum = (l.map f).sum + (l.map g).sum := by
  induction l with
  | nil => simp
  | cons x xs ih =>
    simp only [List.map_cons, List.sum_cons, ih]
    omega

lemma sum_range10_indicator (x : Int) (h0 : 0 ≤ x) (h9 : x ≤ 9) :
    ((List.range 10).map (fun i => if Int.ofNat i = x then 1 else 0)).sum = 1 := by
  interval_cases x <;> decide

lemma sum_counts_eq_length (xs : List Int) (h : ∀ x ∈ xs, 0 ≤ x ∧ x ≤ 9) :
    ((List.range 10).map (fun i => xs.count (Int.ofNat i))).sum = xs.length := by
  induction xs with
  | nil => simp
  | cons x xs ih =>
    have hx := h x (List.mem_cons_self x xs)
    have hxs := fun y hy => h y (List.mem_cons_of_mem x hy)
    have hcount : ∀ i : Nat, (x :: xs).count (Int.ofNat i)
        = xs.count (Int.ofNat i) + if Int.ofNat i = x then 1 else 0 := by
      intro i
      rw [List.count_cons, ite_beq_comm]
    simp only [hcount]
    rw [sum_map_add, ih hxs, sum_range10_indicator x hx.1 hx.2]
    simp

lemma histTotalCount_eq_length (xs : List Int) (h : ∀ x ∈ xs, 0 ≤ x ∧ x ≤ 9) :
    histTotalCount xs = xs.length := by
  rw [histTotalCount, histFrequencies_eq_counts]
  exact sum_counts_eq_length xs h

lemma histTotalCount_append (a b : List Int) :
    histTotalCount (a ++ b) = histTotalCount a + histTotalCount b := by
  rw [histTotalCount, histTotalCount, histTotalCount,
    histFrequencies_eq_counts, histFrequencies_eq_counts, histFrequencies_eq_counts]
  simp only [List.count_append]
  rw [sum_map_add]

/-- C4: for a dataset whose cells lie in the palette [0, 9], the ten
per-palette-index frequency counts sum exactly to the number of cells
scanned in the selected subset, and the total of a `--training-only` run
plus the total of a `--test-only` run equals the total of a default run
with no flags. -/
theorem histogram_totals_spec (trainC : List (String × Challenge))
    (trainS : List (String × List Grid)) (testC : List (String × Challenge))
    (testS : List (String × List Grid))
    (hvals : ∀ x ∈ mainAllIntegers trainC trainS testC testS false false,
      0 ≤ x ∧ x ≤ 9) :
    (∀ trainingOnly testOnly : Bool,
      histTotalCount (mainAllIntegers trainC trainS testC testS trainingOnly testOnly)
        = (mainAllIntegers trainC trainS testC testS trainingOnly testOnly).length) ∧
    histTotalCount (mainAllIntegers trainC trainS testC testS true false)
      + histTotalCount (mainAllIntegers trainC trainS testC testS false true)
      = histTotalCount (mainAllIntegers trainC trainS testC testS false false) := by
  constructor
  · intro a b
    have hsub : ∀ x ∈ mainAllIntegers trainC trainS testC testS a b,
        x ∈ mainAllIntegers trainC trainS testC testS false false := by
      intro x hx
      unfold mainAllIntegers at hx ⊢
      rcases List.mem_append.mp hx with h | h
      · cases b with
        | true => simp at h
        | false => exact List.mem_append.mpr (Or.inl (by simpa using h))
      · cases a with
        | true => simp at h
        | false => exact List.mem_append.mpr (Or.inr (by simpa using h))
    exact histTotalCount_eq_length _ (fun x hx => hvals x (hsub x hx))
  · have h1 : mainAllIntegers trainC trainS testC testS true false
        = extractAllIntegers trainC trainS := by
      simp [mainAllIntegers]
    have h2 : mainAllIntegers trainC trainS testC testS false true
        = extractAllIntegers testC testS := by
      simp [mainAllIntegers]
    have h3 : mainAllIntegers trainC trainS testC testS false false
        = extractAllIntegers trainC trainS ++ extractAllIntegers testC testS := by
      simp [mainAllIntegers]
    rw [h1, h2, h3, histTotalCount_append]

/-- C4 witness: evaluated on a concrete two-challenge dataset. -/
theorem histogram_totals_spec_witness :
    histTotalCount (mainAllIntegers [("a", Challenge.mk [Example.mk [[1]] [[2]]] [[[3]]])]
        [("a", [[[4]]])] [("b", Challenge.mk [] [[[5]]])] [] true false)
      + histTotalCount (mainAllIntegers [("a", Challenge.mk [Example.mk [[1]] [[2]]] [[[3]]])]
          [("a", [[[4]]])] [("b", Challenge.mk [] [[[5]]])] [] false true)
      = histTotalCount (mainAllIntegers [("a", Challenge.mk [Example.mk [[1]] [[2]]] [[[3]]])]
          [("a", [[[4]]])] [("b", Challenge.mk [] [[[5]]])] [] false false) :=
  (histogram_totals_spec [("a", Challenge.mk [Example.mk [[1]] [[2]]] [[[3]]])]
    [("a", [[[4]]])] [("b", Challenge.mk [] [[[5]]])] [] (by decide)).2

/-! ## visualize_challenge layout -/

/-- One axes panel of the composed figure: either a grid drawn by
`plot_grid` with its title, or the red placeholder text panel. -/
inductive Panel where
  | grid (g : Grid) (title : String)
  | placeholder (text title : String)
deriving DecidableEq

/-- The panel drawn in the solution slot of a test example
(arc_visualizer.py, lines 147–162): the solution grid when
`solution_data` is truthy and the index is in range, otherwise the
`No Solution Available` placeholder.  Both branches draw a panel; neither
raises. -/
def testSolutionPanel : Option (List Grid) → Nat → Panel
  | none, i =>
    Panel.placeholder "No Solution\nAvailable" ("Test " ++ toString (i + 1) ++ " Solution")
  | some l, i =>
    if l.isEmpty then
      Panel.placeholder "No Solution\nAvailable" ("Test " ++ toString (i + 1) ++ " Solution")
    else if i < l.length then
      Panel.grid (l.getD i []) ("Test " ++ toString (i + 1) ++ " Solution")
    else
      Panel.placeholder "No Solution\nAvailable" ("Test " ++ toString (i + 1) ++ " Solution")

/-- A panel placed at a 1-based `plt.subplot(2, max_cols, pos)` position. -/
structure PanelPos where
  pos : Nat
  panel : Panel
deriving DecidableEq

/-- The figure always has two subplot rows (training, test). -/
def figRows : Nat := 2

/-- Column count `max_cols = max(n_train * 2, n_test * 2)`
(lines 119–121). -/
def figCols (c : Challenge) : Nat := max (2 * c.train.length) (2 * c.test.length)

/-- The subplot row of 1-based position `p` in a `2 × maxCols` grid. -/
def subplotRow (maxCols p : Nat) : Nat := (p - 1) / maxCols + 1

/-- The subplot column of 1-based position `p` in a `2 × maxCols` grid. -/
def subplotCol (maxCols p : Nat) : Nat := (p - 1) % maxCols + 1

/-- Panels contributed by an indexed traversal (`enumerate` in the
source). -/
def panelsAux {α : Type} (f : Nat → α → List PanelPos) : Nat → List α → List PanelPos
  | _, [] => []
  | i, x :: xs => f i x ++ panelsAux f (i + 1) xs

/-- The two panels of training example `i` (lines 128–135): input at
position `i*2 + 1`, output at `i*2 + 2`, in the first subplot row. -/
def trainPanelsAt (i : Nat) (e : Example) : List PanelPos :=
  [⟨i * 2 + 1, Panel.grid e.input ("Train " ++ toString (i + 1) ++ " Input")⟩,
   ⟨i * 2 + 2, Panel.grid e.output ("Train " ++ toString (i + 1) ++ " Output")⟩]

/-- The two panels of test example `i` (lines 138–162): input at
`max_cols + i*2 + 1`, solution slot at `max_cols + i*2 + 2`. -/
def testPanelsAt (maxCols : Nat) (sols : Option (List Grid)) (i : Nat) (g : Grid) :
    List PanelPos :=
  [⟨maxCols + i * 2 + 1, Panel.grid g ("Test " ++ toString (i + 1) ++ " Input")⟩,
   ⟨maxCols + i * 2 + 2, testSolutionPanel sols i⟩]

/-- All panels placed by `visualize_challenge` (arc_visualizer.py,
lines 108–162). -/
def figPanels (c : Challenge) (sols : Option (List Grid)) : List PanelPos :=
  panelsAux trainPanelsAt 0 c.train
    ++ panelsAux (testPanelsAt (figCols c) sols) 0 c.test

/-- The end-to-end scenario challenge of claim C9: one training pair of
3 × 3 grids and one test example. -/
def chScenario : Challenge :=
  ⟨[⟨[[0, 7, 7], [7, 7, 7], [0, 7, 7]], [[1, 1, 1], [1, 1, 1], [1, 1, 1]]⟩],
   [[[2, 2, 2], [2, 2, 2], [2, 2, 2]]]⟩

/-- The matched 3 × 3 solution of the single test example of the scenario. -/
def scenSol : Grid := [[3, 3, 3], [3, 3, 3], [3, 3, 3]]

lemma mem_panelsAux {α : Type} (f : Nat → α → List PanelPos) (l : List α)
    (j i : Nat) (x : α) (hx : l[i]? = some x) (p : PanelPos)
    (hp : p ∈ f (j + i) x) : p ∈ panelsAux f j l := by
  induction l generalizing j i with
  | nil => simp at hx
  | cons y ys ih =>
    match i with
    | 0 =>
      have hxy : y = x := by simpa using hx
      subst hxy
      exact List.mem_append.mpr (Or.inl (by simpa using hp))
    | i + 1 =>
      have hx' : ys[i]? = some x := by simpa using hx
      have hp' : p ∈ f ((j + 1) + i) x := by
        have : (j + 1) + i = j + (i + 1) := by omega
        rw [this]
        exact hp
      exact List.mem_append.mpr (Or.inr (ih _ _ hx' hp'))

lemma subplotRow_first (m p : Nat) (h1 : 1 ≤ p) (h2 : p ≤ m) : subplotRow m p = 1 := by
  unfold subplotRow
  rw [Nat.div_eq_of_lt (by omega)]

lemma subplotCol_first (m p : Nat) (h1 : 1 ≤ p) (h2 : p ≤ m) : subplotCol m p = p := by
  unfold subplotCol
  rw [Nat.mod_eq_of_lt (by omega)]
  omega

lemma subplotRow_second (m p : Nat) (h1 : m + 1 ≤ p) (h2 : p ≤ 2 * m) :
    subplotRow m p = 2 := by
  unfold subplotRow
  have h3 : p - 1 = (p - 1 - m) + m := by omega
  rw [h3, Nat.add_div_right _ (by omega), Nat.div_eq_of_lt (by omega)]

lemma subplotCol_second (m p : Nat) (h1 : m + 1 ≤ p) (h2 : p ≤ 2 * m) :
    subplotCol m p = p - m := by
  unfold subplotCol
  have h3 : p - 1 = (p - 1 - m) + m := by omega
  rw [h3, Nat.add_mod_right, Nat.mod_eq_of_lt (by omega)]
  omega

/-- C9: the composed figure has 2 subplot rows and
`max(2 * n_train, 2 * n_test)` columns; training example `i` occupies
row-1 columns `2i+1` (input) and `2i+2` (output), test example `j`
occupies row-2 columns `2j+1` (input) and `2j+2` (solution slot); and the
one-train-one-test scenario with a matched solution yields a
two-row, two-column figure of four grid panels with no placeholder. -/
theorem visualize_challenge_layout (c : Challenge) (sols : Option (List Grid))
    (i : Nat) (e : Example) (hie : c.train[i]? = some e)
    (j : Nat) (g : Grid) (hjg : c.test[j]? = some g) :
    ((figPanels chScenario (some [scenSol])).length = 4 ∧
      (figPanels chScenario (some [scenSol])).all
        (fun pp => match pp.panel with
          | Panel.grid _ _ => true
          | Panel.placeholder _ _ => false) = true ∧
      figCols chScenario = 2) ∧
    figRows = 2 ∧
    figCols c = max (2 * c.train.length) (2 * c.test.length) ∧
    ((⟨i * 2 + 1, Panel.grid e.input ("Train " ++ toString (i + 1) ++ " Input")⟩ : PanelPos)
        ∈ figPanels c sols ∧
      subplotRow (figCols c) (i * 2 + 1) = 1 ∧
      subplotCol (figCols c) (i * 2 + 1) = 2 * i + 1) ∧
    ((⟨i * 2 + 2, Panel.grid e.output ("Train " ++ toString (i + 1) ++ " Output")⟩ : PanelPos)
        ∈ figPanels c sols ∧
      subplotRow (figCols c) (i * 2 + 2) = 1 ∧
      subplotCol (figCols c) (i * 2 + 2) = 2 * i + 2) ∧
    ((⟨figCols c + j * 2 + 1, Panel.grid g ("Test " ++ toString (j + 1) ++ " Input")⟩ : PanelPos)
        ∈ figPanels c sols ∧
      subplotRow (figCols c) (figCols c + j * 2 + 1) = 2 ∧
      subplotCol (figCols c) (figCols c + j * 2 + 1) = 2 * j + 1) ∧
    ((⟨figCols c + j * 2 + 2, testSolutionPanel sols j⟩ : PanelPos) ∈ figPanels c sols ∧
      subplotRow (figCols c) (figCols c + j * 2 + 2) = 2 ∧
      subplotCol (figCols c) (figCols c + j * 2 + 2) = 2 * j + 2) := by
  have hi : i < c.train.length := by
    have := List.getElem?_eq_some.mp hie
    exact this.1
  have hj : j < c.test.length := by
    have := List.getElem?_eq_some.mp hjg
    exact this.1
  have hcol1 : 2 * c.train.length ≤ figCols c := le_max_left _ _
  have hcol2 : 2 * c.test.length ≤ figCols c := le_max_right _ _
  refine ⟨⟨by decide, by decide, by decide⟩, rfl, rfl, ⟨?_, ?_, ?_⟩, ⟨?_, ?_, ?_⟩,
    ⟨?_, ?_, ?_⟩, ⟨?_, ?_, ?_⟩⟩
  · exact List.mem_append.mpr (Or.inl
      (mem_panelsAux _ _ 0 i e hie _ (by simp [trainPanelsAt])))
  · exact subplotRow_first _ _ (by omega) (by omega)
  · rw [subplotCol_first _ _ (by omega) (by omega)]
    omega
  · exact List.mem_append.mpr (Or.inl
      (mem_panelsAux _ _ 0 i e hie _ (by simp [trainPanelsAt])))
  · exact subplotRow_first _ _ (by omega) (by omega)
  · rw [subplotCol_first _ _ (by omega) (by omega)]
    omega
  · exact List.mem_append.mpr (Or.inr
      (mem_panelsAux _ _ 0 j g hjg _ (by simp [testPanelsAt])))
  · exact subplotRow_second _ _ (by omega) (by omega)
  · rw [subplotCol_second _ _ (by omega) (by omega)]
    omega
  · exact List.mem_append.mpr (Or.inr
      (mem_panelsAux _ _ 0 j g hjg _ (by simp [testPanelsAt])))
  · exact subplotRow_second _ _ (by omega) (by omega)
  · rw [subplotCol_second _ _ (by omega) (by omega)]
    omega

/-- C9 witness: the scenario conjunct evaluated via the theorem at the
concrete scenario challenge. -/
theorem visualize_challenge_layout_witness :
    (figPanels chScenario (some [scenSol])).length = 4 ∧
    (figPanels chScenario (some [scenSol])).all
      (fun pp => match pp.panel with
        | Panel.grid _ _ => true
        | Panel.placeholder _ _ => false) = true ∧
    figCols chScenario = 2 :=
  (visualize_challenge_layout chScenario (some [scenSol]) 0
    ⟨[[0, 7, 7], [7, 7, 7], [0, 7, 7]], [[1, 1, 1], [1, 1, 1], [1, 1, 1]]⟩ (by decide)
    0 [[2, 2, 2], [2, 2, 2], [2, 2, 2]] (by decide)).1

/-- C7: for a test example whose solution list is absent or whose index is
out of range, the composer draws the labelled placeholder panel in that
solution slot of that example (a total function — no error is raised); a test
example with an in-range solution gets its solution grid instead. -/
theorem missing_solution_placeholder (sols : Option (List Grid)) (i : Nat) :
    (sols = none →
      testSolutionPanel sols i
        = Panel.placeholder "No Solution\nAvailable"
            ("Test " ++ toString (i + 1) ++ " Solution")) ∧
    (∀ l, sols = some l → l.length ≤ i →
      testSolutionPanel sols i
        = Panel.placeholder "No Solution\nAvailable"
            ("Test " ++ toString (i + 1) ++ " Solution")) ∧
    (∀ l, sols = some l → i < l.length →
      testSolutionPanel sols i
        = Panel.grid (l.getD i []) ("Test " ++ toString (i + 1) ++ " Solution")) ∧
    (∀ c : Challenge, ∀ j g, c.test[j]? = some g →
      (⟨figCols c + j * 2 + 2, testSolutionPanel sols j⟩ : PanelPos)
        ∈ figPanels c sols) := by
  refine ⟨?_, ?_, ?_, ?_⟩
  · rintro rfl
    rfl
  · rintro l rfl hl
    show (if l.isEmpty then _ else if i < l.length then _ else _) = _
    split_ifs with h1 h2
    · rfl
    · omega
    · rfl
  · rintro l rfl hl
    have hne : ¬ (l.isEmpty = true) := by
      intro hc
      rw [List.isEmpty_iff] at hc
      subst hc
      simp at hl
    show (if l.isEmpty then _ else if i < l.length then _ else _) = _
    rw [if_neg hne, if_pos hl]
  · intro c j g hjg
    exact List.mem_append.mpr (Or.inr
      (mem_panelsAux _ _ 0 j g hjg _ (by simp [testPanelsAt])))

/-- C7 witness: a one-entry solution list and the out-of-range test index
1 produce the placeholder. -/
theorem missing_solution_placeholder_witness :
    testSolutionPanel (some [[[1]]]) 1
      = Panel.placeholder "No Solution\nAvailable"
          ("Test " ++ toString (1 + 1) ++ " Solution") :=
  (missing_solution_placeholder (some [[[1]]]) 1).2.1 [[[1]]] rfl (by decide)

/-! ## visualize_random_challenges -/

/-- The per-challenge output file name
`f"challenge_{challenge_id}.png"` (arc_visualizer.py, line 197). -/
def challengeFileName (id : String) : String := "challenge_" ++ id ++ ".png"

/-- Shallow embedding of `visualize_random_challenges` (arc_visualizer.py,
lines 180–201), parametrized by the sampler standing for `random.sample`:
it draws `min(n_samples, len(challenges))` identifiers from the key list
and produces one output file name per drawn identifier, in order.
Returns the drawn identifiers and the written file names. -/
def visualizeRandomChallenges (sample : List String → Nat → List String)
    (challenges : List (String × Challenge)) (n : Nat) :
    List String × List String :=
  let ids := sample (challenges.map Prod.fst) (min n challenges.length)
  (ids, ids.map challengeFileName)

lemma challengeFileName_injective : Function.Injective challengeFileName := by
  intro a b h
  unfold challengeFileName at h
  have hd := congrArg String.data h
  simp only [String.data_append] at hd
  rw [List.append_assoc, List.append_assoc] at hd
  have h1 := List.append_cancel_left hd
  have h2 := List.append_cancel_right h1
  exact String.ext h2

/-- Contract of the Python `random.sample(population, k)` for a
duplicate-free population and `k ≤ len(population)`: it returns `k`
pairwise-distinct elements of the population. -/
def SampleSpec (sample : List String → Nat → List String) : Prop :=
  ∀ l k, l.Nodup → k ≤ l.length →
    (sample l k).length = k ∧ (sample l k).Nodup ∧ ∀ x ∈ sample l k, x ∈ l

/-- C10: for a non-empty challenge mapping with distinct keys and any
requested sample count `n`, the visualizer draws exactly
`min(n, number of challenges)` pairwise-distinct challenge identifiers
from the mapping and writes exactly one image file per drawn identifier,
named from it; distinct identifiers give distinct file names. -/
theorem visualize_random_challenges_spec (sample : List String → Nat → List String)
    (hsample : SampleSpec sample) (challenges : List (String × Challenge))
    (hkeys : (challenges.map Prod.fst).Nodup) (_hne : challenges ≠ []) (n : Nat) :
    (visualizeRandomChallenges sample challenges n).1.length
        = min n challenges.length ∧
    (visualizeRandomChallenges sample challenges n).1.Nodup ∧
    (∀ id ∈ (visualizeRandomChallenges sample challenges n).1,
      id ∈ challenges.map Prod.fst) ∧
    (visualizeRandomChallenges sample challenges n).2
        = (visualizeRandomChallenges sample challenges n).1.map challengeFileName ∧
    (visualizeRandomChallenges sample challenges n).2.Nodup := by
  have hk : min n challenges.length ≤ (challenges.map Prod.fst).length := by
    rw [List.length_map]
    omega
  obtain ⟨h1, h2, h3⟩ := hsample (challenges.map Prod.fst) (min n challenges.length)
    hkeys hk
  refine ⟨h1, h2, h3, rfl, ?_⟩
  exact h2.map challengeFileName_injective

/-- C10 witness: with the take-the-first-k sampler — which satisfies the
`random.sample` contract — on a two-challenge mapping and `n = 5`. -/
theorem visualize_random_challenges_spec_witness :
    (visualizeRandomChallenges (fun l k => l.take k)
        [("a", Challenge.mk [] []), ("b", Challenge.mk [] [])] 5).1.length = min 5 2 ∧
    (visualizeRandomChallenges (fun l k => l.take k)
        [("a", Challenge.mk [] []), ("b", Challenge.mk [] [])] 5).2
      = (visualizeRandomChallenges (fun l k => l.take k)
          [("a", Challenge.mk [] []), ("b", Challenge.mk [] [])] 5).1.map
            challengeFileName := by
  have htake : SampleSpec (fun l k => l.take k) := by
    intro l k hnd hk
    refine ⟨by rw [List.length_take]; omega, hnd.sublist (List.take_sublist k l), ?_⟩
    intro x hx
    exact List.take_subset k l hx
  exact ⟨(visualize_random_challenges_spec (fun l k => l.take k) htake
      [("a", Challenge.mk [] []), ("b", Challenge.mk [] [])] (by decide) (by decide) 5).1,
    (visualize_random_challenges_spec (fun l k => l.take k) htake
      [("a", Challenge.mk [] []), ("b", Challenge.mk [] [])] (by decide) (by decide) 5).2.2.2.1⟩
